import Mathlib

/-!
# ccache_exporter: stats aggregation and derived metrics

A shallow embedding of `ccache/stats.go` (the counter vector, `Counters.Read`,
`Counters.ReadAll`) and of the collector in `main.go` (`Describe`, `Collect`),
together with the parts of the Go standard library they call
(`os.Open`, `os.IsNotExist`, `bufio.Scanner` with the default `ScanLines` split,
`strconv.ParseUint`, `fmt.Sprintf` with `%s` and `%x`).

Conventions:
* `uint64` values are natural numbers, every addition is written with an explicit
  `% 2^64`;
* a file is the list of bytes its reader delivers, followed by end of file or by a
  read error;
* the file system is a function from paths to the outcome of `os.Open`;
* code that mutates the receiver (`counters *Counters`) returns the new vector
  together with the returned `error` (`none` is Go's `nil`);
* `float64` metric values are exact rationals.
-/

set_option autoImplicit false

/-! ## Errors and files -/

/-- Go `error` values that can reach `Counters.Read`. -/
inductive Error where
  /-- An operating-system error (an `*os.PathError` around a `syscall.Errno`). -/
  | errno (code : Nat)
  /-- The parse failure `strconv.ErrSyntax`. -/
  | ErrSyntax
  /-- The parse failure `strconv.ErrRange`. -/
  | ErrRange
  /-- The scanner failure `bufio.ErrTooLong`. -/
  | ErrTooLong
  deriving DecidableEq, Repr

/-- An opened file: the bytes that successive reads deliver, and the error the
reader reports after them (`none` for a clean end of file). -/
structure File where
  data : List UInt8
  readErr : Option Error

/-- The file system as `os.Open` sees it. -/
abbrev FS := String → Except Error File

namespace os

/-- The errno of "no such file or directory". -/
def ENOENT : Nat := 2

/-- Go `os.Open(path)`. -/
def Open (fs : FS) (path : String) : Except Error File := fs path

/-- Go `os.IsNotExist(err)`. -/
def IsNotExist : Error → Bool
  | .errno code => code == ENOENT
  | _ => false

end os

/-! ## `strconv.ParseUint(s, 10, 64)` -/

namespace strconv

/-- The constant `maxUint64`. -/
def maxUint64 : Nat := 2 ^ 64 - 1

/-- The constant `cutoff` for base 10: the smallest number with `cutoff*10 > maxUint64`. -/
def cutoff : Nat := maxUint64 / 10 + 1

/-- The helper `lower(c)`, which is `c | ('x' - 'X')`. -/
def lower (c : UInt8) : UInt8 := c ||| 32

/-- The `switch` on a byte inside `ParseUint` (base 10, so `_` is not accepted):
the digit value `d`, or `none` for the `default` branch. -/
def digitOf (c : UInt8) : Option Nat :=
  if 48 ≤ c.toNat ∧ c.toNat ≤ 57 then some (c.toNat - 48)
  else if 97 ≤ (lower c).toNat ∧ (lower c).toNat ≤ 122 then some ((lower c).toNat - 97 + 10)
  else none

/-- The loop `for _, c := range []byte(s)` of `ParseUint` with accumulator `n`;
the result is the pair `(uint64, error)` that `ParseUint` returns. -/
def ParseUintLoop : List UInt8 → Nat → Nat × Option Error
  | [], n => (n, none)
  | c :: s, n =>
    match digitOf c with
    | none => (0, some .ErrSyntax)
    | some d =>
      if d ≥ 10 then (0, some .ErrSyntax)
      else if n ≥ cutoff then (maxUint64, some .ErrRange)
      else
        let n := (n * 10) % 2 ^ 64
        let n1 := (n + d) % 2 ^ 64
        if n1 < n ∨ n1 > maxUint64 then (maxUint64, some .ErrRange)
        else ParseUintLoop s n1

/-- Go `strconv.ParseUint(s, 10, 64)`. -/
def ParseUint (s : List UInt8) : Nat × Option Error :=
  if s = [] then (0, some .ErrSyntax) else ParseUintLoop s 0

end strconv

/-! ## `bufio.Scanner` with the default split function `ScanLines` -/

namespace bufio

/-- The constant `MaxScanTokenSize`, the size the scanner's buffer may grow to. -/
def MaxScanTokenSize : Nat := 64 * 1024

/-- Go `dropCR`: drop one terminal carriage return. -/
def dropCR (data : List UInt8) : List UInt8 :=
  if data.getLast? = some 13 then data.dropLast else data

/-- What a scanner yields over its lifetime: the texts of the successful `Scan` calls
and the value `Err()` has once `Scan` has returned false. -/
structure Scanned where
  tokens : List (List UInt8)
  err : Option Error

/-- The scanner at work on the remaining input, `cur` being the bytes of the current
line seen so far, latest first. A line is delivered (without its newline and a
terminal carriage return) when it fits in the buffer together with the byte that
ends it; a line of `MaxScanTokenSize` bytes or more fills the buffer and stops the
scanner with `ErrTooLong`. At the end of the input a non-empty unterminated line is
delivered, and the reader's error becomes the scanner's. -/
def scanFrom (readErr : Option Error) : List UInt8 → List UInt8 → Scanned
  | [], cur =>
    if cur = [] then ⟨[], readErr⟩
    else if cur.length < MaxScanTokenSize then ⟨[dropCR cur.reverse], readErr⟩
    else ⟨[], some .ErrTooLong⟩
  | b :: rest, cur =>
    if b = 10 then
      if cur.length < MaxScanTokenSize then
        ⟨dropCR cur.reverse :: (scanFrom readErr rest []).tokens, (scanFrom readErr rest []).err⟩
      else ⟨[], some .ErrTooLong⟩
    else scanFrom readErr rest (b :: cur)

/-- Go `bufio.NewScanner(file)` followed by calls of `Scan` until it returns false. -/
def Scan (file : File) : Scanned := scanFrom file.readErr file.data []

end bufio

/-! ## `fmt.Sprintf` -/

namespace fmt

/-- The verb `%x` on a non-negative `int`: lower-case hexadecimal digits. -/
def hex (n : Nat) : String := String.mk (Nat.toDigits 16 n)

/-- Go `fmt.Sprintf("%s/%x/stats", dir, level1)`. -/
def Sprintf_s_x_stats (dir : String) (level1 : Nat) : String :=
  dir ++ "/" ++ hex level1 ++ "/stats"

/-- Go `fmt.Sprintf("%s/%x/%x/stats", dir, level1, level2)`. -/
def Sprintf_s_x_x_stats (dir : String) (level1 level2 : Nat) : String :=
  dir ++ "/" ++ hex level1 ++ "/" ++ hex level2 ++ "/stats"

end fmt

/-! ## Package `ccache` -/

namespace ccache

/-! The counter indices of the `const` block; each is an index into `Counters`. -/

def None : Fin 82 := 0
def CompilerProducedStdout : Fin 82 := 1
def CompileFailed : Fin 82 := 2
def InternalError : Fin 82 := 3
def CacheMiss : Fin 82 := 4
def PreprocessorError : Fin 82 := 5
def CouldNotFindCompiler : Fin 82 := 6
def MissingCacheFile : Fin 82 := 7
def PreprocessedCacheHit : Fin 82 := 8
def BadCompilerArguments : Fin 82 := 9
def CalledForLink : Fin 82 := 10
def FilesInCache : Fin 82 := 11
def CacheSizeKibibyte : Fin 82 := 12
def ObsoleteMaxFiles : Fin 82 := 13
def ObsoleteMaxSize : Fin 82 := 14
def UnsupportedSourceLanguage : Fin 82 := 15
def BadOutputFile : Fin 82 := 16
def NoInputFile : Fin 82 := 17
def MultipleSourceFiles : Fin 82 := 18
def AutoconfTest : Fin 82 := 19
def UnsupportedCompilerOption : Fin 82 := 20
def OutputToStdout : Fin 82 := 21
def DirectCacheHit : Fin 82 := 22
def CompilerProducedNoOutput : Fin 82 := 23
def CompilerProducedEmptyOutput : Fin 82 := 24
def ErrorHashingExtraFile : Fin 82 := 25
def CompilerCheckFailed : Fin 82 := 26
def CouldNotUsePrecompiledHeader : Fin 82 := 27
def CalledForPreprocessing : Fin 82 := 28
def CleanupsPerformed : Fin 82 := 29
def UnsupportedCodeDirective : Fin 82 := 30
def StatsZeroedTimestamp : Fin 82 := 31
def CouldNotUseModules : Fin 82 := 32
def DirectCacheMiss : Fin 82 := 33
def PreprocessedCacheMiss : Fin 82 := 34
def LocalStorageReadHit : Fin 82 := 35
def LocalStorageReadMiss : Fin 82 := 36
def RemoteStorageReadHit : Fin 82 := 37
def RemoteStorageReadMiss : Fin 82 := 38
def RemoteStorageError : Fin 82 := 39
def RemoteStorageTimeout : Fin 82 := 40
def Recache : Fin 82 := 41
def UnsupportedEnvironmentVariable : Fin 82 := 42
def LocalStorageWrite : Fin 82 := 43
def LocalStorageHit : Fin 82 := 44
def LocalStorageMiss : Fin 82 := 45
def RemoteStorageWrite : Fin 82 := 46
def RemoteStorageHit : Fin 82 := 47
def RemoteStorageMiss : Fin 82 := 48
def SubdirFilesBase : Fin 82 := 49
def SubdirSizeKibibyteBase : Fin 82 := 65
def Disabled : Fin 82 := 81

/-- Go `type Counters [82]uint64`. -/
abbrev Counters := Fin 82 → Nat

/-- The zero value `ccache.Counters{}`. -/
def Counters.zero : Counters := fun _ => 0

/-- The statement `counters[i] += n` on `uint64`. -/
def Counters.add (counters : Counters) (i : Nat) (n : Nat) : Counters :=
  fun j => if j.val = i then (counters j + n) % 2 ^ 64 else counters j

/-- The loop `for scanner.Scan() { ... }` of `Read`, over the texts the scanner
yields, with loop variable `i`. -/
def Counters.ReadLoop : List (List UInt8) → Nat → Counters → Counters × Option Error
  | [], _, counters => (counters, none)
  | text :: more, i, counters =>
    match strconv.ParseUint text with
    | (_, some err) => (counters, some err)
    | (n, none) =>
      if i + 1 = 82 then (counters.add i n, none)
      else Counters.ReadLoop more (i + 1) (counters.add i n)

/-- Go `func (counters *Counters) Read(path string) error`. -/
def Counters.Read (fs : FS) (counters : Counters) (path : String) : Counters × Option Error :=
  match os.Open fs path with
  | .error err => if os.IsNotExist err then (counters, none) else (counters, some err)
  | .ok file => Counters.ReadLoop (bufio.Scan file).tokens 0 counters

/-- The inner loop `for level2 := 0; level2 <= 0xF; level2++` of `ReadAll`, over the
values of `level2` still to come. -/
def Counters.ReadAllLevel2 (fs : FS) (ccachedir : String) (level1 : Nat) :
    List Nat → Counters → Counters × Option Error
  | [], counters => (counters, none)
  | level2 :: more, counters =>
    match Counters.Read fs counters (fmt.Sprintf_s_x_x_stats ccachedir level1 level2) with
    | (counters, some err) => (counters, some err)
    | (counters, none) => Counters.ReadAllLevel2 fs ccachedir level1 more counters

/-- The outer loop `for level1 := 0; level1 <= 0xF; level1++` of `ReadAll`, over the
values of `level1` still to come. -/
def Counters.ReadAllLevel1 (fs : FS) (ccachedir : String) :
    List Nat → Counters → Counters × Option Error
  | [], counters => (counters, none)
  | level1 :: more, counters =>
    match Counters.Read fs counters (fmt.Sprintf_s_x_stats ccachedir level1) with
    | (counters, some err) => (counters, some err)
    | (counters, none) =>
      match Counters.ReadAllLevel2 fs ccachedir level1 (List.range (0xF + 1)) counters with
      | (counters, some err) => (counters, some err)
      | (counters, none) => Counters.ReadAllLevel1 fs ccachedir more counters

/-- Go `func (counters *Counters) ReadAll(ccachedir string) error`. -/
def Counters.ReadAll (fs : FS) (counters : Counters) (ccachedir : String) :
    Counters × Option Error :=
  Counters.ReadAllLevel1 fs ccachedir (List.range (0xF + 1)) counters

end ccache


/-! ## Package `main`: the collector -/

namespace prometheus

/-- A metric descriptor `prometheus.Desc` as `NewDesc(fqName, help, variableLabels, nil)`
builds it. -/
structure Desc where
  fqName : String
  help : String
  variableLabels : List String
  deriving DecidableEq, Repr

/-- Go `prometheus.ValueType`. -/
inductive ValueType where
  | CounterValue
  | GaugeValue
  deriving DecidableEq, Repr

/-- A constant metric as `MustNewConstMetric(desc, valueType, value, labelValues...)`
builds it. (`MustNewConstMetric` panics when the number of label values differs from
the number of variable labels of the descriptor; the collector built in `main` gives
`callHit` one variable label and one label value, and every other descriptor none.) -/
structure Metric where
  desc : Desc
  valueType : ValueType
  value : ℚ
  labelValues : List String

/-- Go `prometheus.BuildFQName(namespace, subsystem, name)`. -/
def BuildFQName (ns subsystem name : String) : String :=
  if name = "" then ""
  else if ns ≠ "" ∧ subsystem ≠ "" then ns ++ "_" ++ subsystem ++ "_" ++ name
  else if ns ≠ "" then ns ++ "_" ++ name
  else if subsystem ≠ "" then subsystem ++ "_" ++ name
  else name

end prometheus

open prometheus in
/-- Go `type collector struct`. -/
structure collector where
  ccacheDir : String
  ccacheSize : Int
  call : Desc
  callCachable : Desc
  callHit : Desc
  cacheHitRatio : Desc
  calledForLink : Desc
  calledForPreprocessing : Desc
  compilationFailed : Desc
  preprocessingFailed : Desc
  unsupportedCodeDirective : Desc
  noInputFile : Desc
  cleanupsPerformed : Desc
  filesInCache : Desc
  cacheSizeBytes : Desc
  maxCacheSizeBytes : Desc

/-- Go `func (c *collector) Describe(ch chan<- *prometheus.Desc)`: the descriptors sent
on `ch`, in order. -/
def collector.Describe (c : collector) : List prometheus.Desc :=
  [c.call, c.callHit, c.cacheHitRatio, c.calledForLink, c.calledForPreprocessing,
   c.compilationFailed, c.preprocessingFailed, c.unsupportedCodeDirective, c.noInputFile,
   c.cleanupsPerformed, c.filesInCache, c.cacheSizeBytes, c.maxCacheSizeBytes]

/-- Addition of two `uint64` values. -/
def addU64 (a b : Nat) : Nat := (a + b) % 2 ^ 64

/-- Multiplication of two `uint64` values. -/
def mulU64 (a b : Nat) : Nat := (a * b) % 2 ^ 64

/-! The local variables of `Collect`, as functions of the counters read. A chain
`x0 + x1 + ... + xn` of the source is the left fold of `addU64` from `x0`. -/

namespace CollectVars

open ccache

/-- The local `miss`. -/
def miss (counters : Counters) : Nat := counters CacheMiss

/-- The local `hits`. -/
def hits (counters : Counters) : Nat :=
  addU64 (counters DirectCacheHit) (counters PreprocessedCacheHit)

/-- The local `uncacheable`. -/
def uncacheable (counters : Counters) : Nat :=
  List.foldl addU64 (counters AutoconfTest)
    [counters BadCompilerArguments,
     counters CalledForLink,
     counters CalledForPreprocessing,
     counters CompileFailed,
     counters CompilerProducedNoOutput,
     counters CompilerProducedEmptyOutput,
     counters CouldNotUseModules,
     counters CouldNotUsePrecompiledHeader,
     counters Disabled,
     counters MultipleSourceFiles,
     counters NoInputFile,
     counters OutputToStdout,
     counters PreprocessorError,
     counters Recache,
     counters UnsupportedCodeDirective,
     counters UnsupportedCompilerOption,
     counters UnsupportedEnvironmentVariable,
     counters UnsupportedSourceLanguage]

/-- The local `errors`. -/
def errors (counters : Counters) : Nat :=
  List.foldl addU64 (counters BadOutputFile)
    [counters CompilerCheckFailed,
     counters CouldNotFindCompiler,
     counters ErrorHashingExtraFile,
     counters InternalError,
     counters MissingCacheFile]

/-- The local `cachable`. -/
def cachable (counters : Counters) : Nat := addU64 (miss counters) (hits counters)

/-- The local `call`. -/
def call (counters : Counters) : Nat :=
  addU64 (addU64 (cachable counters) (uncacheable counters)) (errors counters)

/-- The local `hitRatio`: zero unless `cachable > 0`. -/
def hitRatio (counters : Counters) : ℚ :=
  if cachable counters > 0 then (hits counters : ℚ) / (cachable counters : ℚ) else 0

end CollectVars

/-- What one call of `Collect` does to the world around it: the new value of the
package-level counter `parsingErrors` and the metrics sent on `ch`, in order. -/
structure Collected where
  parsingErrors : Nat
  sent : List prometheus.Metric

open prometheus ccache in
/-- Go `func (c *collector) Collect(ch chan<- prometheus.Metric)`, run on the file
system `fs` with the counter `parsingErrors` at the given value. -/
def collector.Collect (c : collector) (fs : FS) (parsingErrors : Nat) : Collected :=
  match Counters.ReadAll fs Counters.zero c.ccacheDir with
  | (_, some _) => ⟨parsingErrors + 1, []⟩
  | (counters, none) =>
    ⟨parsingErrors,
     [⟨c.call, .CounterValue, (CollectVars.call counters : ℚ), []⟩,
      ⟨c.callCachable, .CounterValue, (CollectVars.cachable counters : ℚ), []⟩,
      ⟨c.callHit, .CounterValue, (counters DirectCacheHit : ℚ), ["direct"]⟩,
      ⟨c.callHit, .CounterValue, (counters PreprocessedCacheHit : ℚ), ["preprocessed"]⟩,
      ⟨c.calledForLink, .CounterValue, (counters CalledForLink : ℚ), []⟩,
      ⟨c.calledForPreprocessing, .CounterValue, (counters CalledForPreprocessing : ℚ), []⟩,
      ⟨c.compilationFailed, .CounterValue, (counters CompileFailed : ℚ), []⟩,
      ⟨c.preprocessingFailed, .CounterValue, (counters PreprocessorError : ℚ), []⟩,
      ⟨c.unsupportedCodeDirective, .CounterValue, (counters UnsupportedCodeDirective : ℚ), []⟩,
      ⟨c.noInputFile, .CounterValue, (counters NoInputFile : ℚ), []⟩,
      ⟨c.cleanupsPerformed, .CounterValue, (counters CleanupsPerformed : ℚ), []⟩,
      ⟨c.cacheHitRatio, .GaugeValue, CollectVars.hitRatio counters, []⟩,
      ⟨c.filesInCache, .GaugeValue, (counters FilesInCache : ℚ), []⟩,
      ⟨c.cacheSizeBytes, .GaugeValue, (mulU64 (counters CacheSizeKibibyte) 1024 : ℚ), []⟩,
      ⟨c.maxCacheSizeBytes, .GaugeValue, (c.ccacheSize : ℚ), []⟩]⟩

/-- The constant `namespace` of package `main`. -/
def namespace_ : String := "ccache"

open prometheus in
/-- The collector that `main` builds and registers, for the directory and size its
flags and environment resolve to. -/
def mainCollector (ccacheDir : String) (ccacheSize : Int) : collector where
  ccacheDir := ccacheDir
  ccacheSize := ccacheSize
  call := ⟨BuildFQName namespace_ "" "call_total", "Cache calls (total)", []⟩
  callCachable :=
    ⟨BuildFQName namespace_ "" "call_cachable_total", "Cachable cache calls (total)", []⟩
  callHit := ⟨BuildFQName namespace_ "" "call_hit_total", "Cache hits", ["mode"]⟩
  cacheHitRatio :=
    ⟨BuildFQName namespace_ "" "cache_hit_ratio",
     "Cache hit ratio (direct + preprocessed) / miss", []⟩
  calledForLink := ⟨BuildFQName namespace_ "" "called_for_link_total", "Called for link", []⟩
  calledForPreprocessing :=
    ⟨BuildFQName namespace_ "" "called_for_preprocessing_total", "Called for preprocessing", []⟩
  compilationFailed :=
    ⟨BuildFQName namespace_ "" "compilation_failed_total", "Compilation failed", []⟩
  preprocessingFailed :=
    ⟨BuildFQName namespace_ "" "preprocessing_failed_total", "Preprocessing failed", []⟩
  unsupportedCodeDirective :=
    ⟨BuildFQName namespace_ "" "unsupported_code_directive_total",
     "Unsupported code directive", []⟩
  noInputFile := ⟨BuildFQName namespace_ "" "no_input_file_total", "No input file", []⟩
  cleanupsPerformed :=
    ⟨BuildFQName namespace_ "" "cleanups_performed_total", "Cleanups performed", []⟩
  filesInCache := ⟨BuildFQName namespace_ "" "cached_files", "Cached files", []⟩
  cacheSizeBytes := ⟨BuildFQName namespace_ "" "cache_size_bytes", "Cache size (bytes)", []⟩
  maxCacheSizeBytes :=
    ⟨BuildFQName namespace_ "" "cache_size_max_bytes", "Maximum cache size (bytes)", []⟩

/-! ## The stats file format, in the words of the specification -/

namespace Spec

/-- The lines of a text file: the runs of bytes that newlines end; the last line may
lack its newline, and a newline at the very end starts no further line. -/
def fileLines : List UInt8 → List (List UInt8)
  | [] => []
  | b :: rest =>
    if b = 10 then [] :: fileLines rest
    else
      match fileLines rest with
      | [] => [[b]]
      | l :: ls => (b :: l) :: ls

/-- The text of a line under standard line parsing: a carriage return at its end
belongs to the line ending. -/
def lineText (l : List UInt8) : List UInt8 :=
  if l.getLast? = some 13 then l.dropLast else l

/-- An ASCII decimal digit. -/
def isDigit (c : UInt8) : Bool := decide (48 ≤ c.toNat) && decide (c.toNat ≤ 57)

/-- The number a run of decimal digits denotes. -/
def decimalValue (s : List UInt8) : Nat :=
  s.foldl (fun n c => 10 * n + (c.toNat - 48)) 0

/-- An unsigned 64-bit decimal integer: digits only (no sign, no blank), at least one,
denoting at most `2^64 - 1`. -/
def isU64Decimal (s : List UInt8) : Bool :=
  !s.isEmpty && s.all isDigit && decide (decimalValue s < 2 ^ 64)

/-- A line is over-long when it does not fit the scanner's buffer of 64 KiB. -/
def overLong (l : List UInt8) : Bool := decide (64 * 1024 ≤ l.length)

/-- A valid line of a stats file: not over-long, and its text an unsigned 64-bit
decimal integer. -/
def validLine (l : List UInt8) : Bool := !overLong l && isU64Decimal (lineText l)

/-- The value of a line. -/
def lineValue (l : List UInt8) : Nat := decimalValue (lineText l)

/-- The values a stats file holds for the counter vector: those of its first 82
lines, up to the first line that is not valid. -/
def goodValues (data : List UInt8) : List Nat :=
  (((fileLines data).take 82).takeWhile validLine).map lineValue

/-- What the outcome of opening a path contributes to the counters, index by index:
the good values of the file, nothing when there is no file to read. -/
def contribution : Except Error File → List Nat
  | .ok file => goodValues file.data
  | .error _ => []

/-- The value on line `i` of the file at a path: 0 when the file is absent or has no
line `i`. -/
def lineValueAt (r : Except Error File) (i : Nat) : Nat :=
  match r with
  | .ok file =>
    match (fileLines file.data)[i]? with
    | some l => lineValue l
    | none => 0
  | .error _ => 0

/-- A stats path is in order for aggregation: either no file exists there, or the
file is readable (it opens and reads to its end) and valid (each of its first 82
lines is a valid line). -/
def wellFormed : Except Error File → Bool
  | .ok file => file.readErr.isNone && ((fileLines file.data).take 82).all validLine
  | .error err => os.IsNotExist err

/-- The sixteen lower-case hexadecimal digits, ascending. -/
def hexDigits : List String :=
  ["0", "1", "2", "3", "4", "5", "6", "7", "8", "9", "a", "b", "c", "d", "e", "f"]

/-- The 272 stats paths under a base directory, in the order of the walk: for each
`h1` ascending, `<base>/<h1>/stats` and then `<base>/<h1>/<h2>/stats` for each `h2`
ascending. -/
def shardPaths (base : String) : List String :=
  hexDigits.flatMap fun h1 =>
    (base ++ "/" ++ h1 ++ "/stats") ::
      hexDigits.map fun h2 => base ++ "/" ++ h1 ++ "/" ++ h2 ++ "/stats"

/-- The counter indices the specification lists for `uncacheable`, in its order:
AutoconfTest, BadCompilerArguments, CalledForLink, CalledForPreprocessing,
CompileFailed, CompilerProducedNoOutput, CompilerProducedEmptyOutput,
CouldNotUseModules, CouldNotUsePrecompiledHeader, Disabled, MultipleSourceFiles,
NoInputFile, OutputToStdout, PreprocessorError, Recache, UnsupportedCodeDirective,
UnsupportedCompilerOption, UnsupportedEnvironmentVariable,
UnsupportedSourceLanguage. -/
def uncacheableKinds : List (Fin 82) :=
  [19, 9, 10, 28, 2, 23, 24, 32, 27, 81, 18, 17, 21, 5, 41, 30, 20, 42, 15]

/-- The counter indices the specification lists for `errors`, in its order:
BadOutputFile, CompilerCheckFailed, CouldNotFindCompiler, ErrorHashingExtraFile,
InternalError, MissingCacheFile. -/
def errorKinds : List (Fin 82) := [16, 26, 6, 25, 3, 7]

/-- The sum of the counters of the given kinds, as a natural number. -/
def sumOf (counters : ccache.Counters) (kinds : List (Fin 82)) : Nat :=
  (kinds.map counters).sum

end Spec

/-- Reading the given paths one after the other with `Counters.Read`, stopping at the
first error: the shape both loops of `ReadAll` have. -/
def readPaths (fs : FS) : List String → ccache.Counters → ccache.Counters × Option Error
  | [], counters => (counters, none)
  | path :: more, counters =>
    match ccache.Counters.Read fs counters path with
    | (counters, some err) => (counters, some err)
    | (counters, none) => readPaths fs more counters

/-! ## Concrete inputs -/

namespace Example

/-- The outcome of `os.Open` where no file exists. -/
def noFile : Except Error File := .error (.errno os.ENOENT)

/-- A base directory whose 272 stats files are all absent. -/
def emptyTree : FS := fun _ => noFile

/-- The bytes of `"0\n0\n0\n0\n5\n"`: CacheMiss (index 4) is 5. -/
def missFive : List UInt8 := [48, 10, 48, 10, 48, 10, 48, 10, 53, 10]

/-- A single stats file, at shard `3`, with CacheMiss 5. -/
def oneShard : FS := fun p =>
  if p = "/ccache/3/stats" then .ok ⟨missFive, none⟩ else noFile

/-- The bytes of `"1\nabc\n2\n"`. -/
def abcData : List UInt8 := [49, 10, 97, 98, 99, 10, 50, 10]

/-- The file `"7\n"` at shard `0` and a file with the line `abc` at shard `0/1`. -/
def abcTree : FS := fun p =>
  if p = "/ccache/0/stats" then .ok ⟨[55, 10], none⟩
  else if p = "/ccache/0/1/stats" then .ok ⟨abcData, none⟩
  else noFile

/-- A line of 65536 bytes `x`. -/
def overLongLine : List UInt8 := List.replicate 65536 120

/-- A stats file that consists of one over-long line. -/
def overLongFile : File := ⟨overLongLine, none⟩

/-- The errno of "is a directory". -/
def EISDIR : Nat := 21

/-- A stats path that is a directory: it opens, and reading it fails. -/
def directory : File := ⟨[], some (.errno EISDIR)⟩

/-- The bytes of `"9223372036854775808\n"`, the decimal numeral of `2^63`. -/
def twoPow63 : List UInt8 :=
  [57, 50, 50, 51, 51, 55, 50, 48, 51, 54, 56, 53, 52, 55, 55, 53, 56, 48, 56, 10]

/-- A file system whose every path holds the stats file `twoPow63`. -/
def twoPow63Tree : FS := fun _ => .ok ⟨twoPow63, none⟩

/-- Counters with DirectCacheHit `2^64 - 1` and CacheMiss 2, all others zero. -/
def wrapping : ccache.Counters := fun j =>
  if j = ccache.DirectCacheHit then 2 ^ 64 - 1 else if j = ccache.CacheMiss then 2 else 0

/-- Counters with DirectCacheHit 3 and PreprocessedCacheHit 7, all others zero. -/
def hitsOnly : ccache.Counters := fun j =>
  if j = ccache.DirectCacheHit then 3 else if j = ccache.PreprocessedCacheHit then 7 else 0

end Example

/-! ## `strconv.ParseUint` accepts exactly the unsigned 64-bit decimal integers -/

theorem two_pow_64 : (2 : Nat) ^ 64 = 18446744073709551616 := by norm_num

theorem digitOf_digit (c : UInt8) (h : Spec.isDigit c = true) :
    strconv.digitOf c = some (c.toNat - 48) ∧ c.toNat - 48 < 10 := by
  simp only [Spec.isDigit, Bool.and_eq_true, decide_eq_true_eq] at h
  refine ⟨?_, by omega⟩
  unfold strconv.digitOf
  rw [if_pos h]

theorem digitOf_not_digit (c : UInt8) (h : Spec.isDigit c = false) :
    ∀ d, strconv.digitOf c = some d → 10 ≤ d := by
  intro d hd
  have h' : ¬ (48 ≤ c.toNat ∧ c.toNat ≤ 57) := by
    intro hc
    simp [Spec.isDigit, hc.1, hc.2] at h
  unfold strconv.digitOf at hd
  rw [if_neg h'] at hd
  split at hd
  · cases hd; omega
  · cases hd

theorem foldl_decimal_ge (s : List UInt8) (n : Nat) :
    n ≤ s.foldl (fun n c => 10 * n + (c.toNat - 48)) n := by
  induction s generalizing n with
  | nil => simp
  | cons c s ih =>
    simp only [List.foldl_cons]
    exact le_trans (by omega) (ih _)

/-- The loop of `ParseUint` on digits: it succeeds exactly when the value stays below
`2^64`, and then returns it. -/
theorem ParseUintLoop_digits (s : List UInt8) (n : Nat) (hn : n < 2 ^ 64)
    (hs : s.all Spec.isDigit = true) :
    (s.foldl (fun n c => 10 * n + (c.toNat - 48)) n < 2 ^ 64 →
      strconv.ParseUintLoop s n = (s.foldl (fun n c => 10 * n + (c.toNat - 48)) n, none)) ∧
    (¬ s.foldl (fun n c => 10 * n + (c.toNat - 48)) n < 2 ^ 64 →
      (strconv.ParseUintLoop s n).2 = some Error.ErrRange) := by
  induction s generalizing n with
  | nil =>
    simp only [strconv.ParseUintLoop, List.foldl_nil]
    exact ⟨fun _ => trivial, fun h => absurd hn h⟩
  | cons c s ih =>
    simp only [List.all_cons, Bool.and_eq_true] at hs
    obtain ⟨hd, hd10⟩ := digitOf_digit c hs.1
    have hge := foldl_decimal_ge s (10 * n + (c.toNat - 48))
    simp only [List.foldl_cons]
    unfold strconv.ParseUintLoop
    simp only [hd, strconv.cutoff, strconv.maxUint64, two_pow_64] at *
    rw [if_neg (by omega)]
    by_cases hc : n ≥ 18446744073709551615 / 10 + 1
    · rw [if_pos hc]
      constructor
      · intro h; omega
      · intro _; rfl
    · rw [if_neg hc]
      have h1 : n * 10 % 18446744073709551616 = n * 10 := Nat.mod_eq_of_lt (by omega)
      simp only [h1]
      by_cases hov : 10 * n + (c.toNat - 48) < 18446744073709551616
      · have h2 : (n * 10 + (c.toNat - 48)) % 18446744073709551616 = 10 * n + (c.toNat - 48) := by
          rw [Nat.mod_eq_of_lt (by omega)]; omega
        rw [h2, if_neg (by omega)]
        exact ih _ hov hs.2
      · have h2 : (n * 10 + (c.toNat - 48)) % 18446744073709551616
            = n * 10 + (c.toNat - 48) - 18446744073709551616 := by
          rw [Nat.mod_eq_sub_mod (by omega), Nat.mod_eq_of_lt (by omega)]
        rw [h2, if_pos (by omega)]
        constructor
        · intro h; omega
        · intro _; rfl

theorem ParseUintLoop_nondigit (s : List UInt8) (n : Nat)
    (hs : s.all Spec.isDigit = false) : (strconv.ParseUintLoop s n).2 ≠ none := by
  induction s generalizing n with
  | nil => simp at hs
  | cons c s ih =>
    unfold strconv.ParseUintLoop
    cases hc : Spec.isDigit c with
    | false =>
      have := digitOf_not_digit c hc
      cases hd : strconv.digitOf c with
      | none => simp
      | some d => simp [this d hd]
    | true =>
      have hs' : s.all Spec.isDigit = false := by simpa [hc] using hs
      obtain ⟨hd, hd10⟩ := digitOf_digit c hc
      simp only [hd]
      split
      · simp
      · split
        · simp
        · split
          · simp
          · exact ih _ hs'

/-- `ParseUint` returns the value of every unsigned 64-bit decimal integer. -/
theorem ParseUint_valid (s : List UInt8) (h : Spec.isU64Decimal s = true) :
    strconv.ParseUint s = (Spec.decimalValue s, none) := by
  simp only [Spec.isU64Decimal, Bool.and_eq_true, Bool.not_eq_true', decide_eq_true_eq,
    List.isEmpty_eq_false] at h
  obtain ⟨⟨hne, hall⟩, hval⟩ := h
  unfold strconv.ParseUint
  rw [if_neg hne]
  exact (ParseUintLoop_digits s 0 (by norm_num) hall).1 hval

/-- `ParseUint` fails on everything else. -/
theorem ParseUint_invalid (s : List UInt8) (h : Spec.isU64Decimal s = false) :
    (strconv.ParseUint s).2 ≠ none := by
  unfold strconv.ParseUint
  by_cases hne : s = []
  · simp [hne]
  · rw [if_neg hne]
    cases hall : s.all Spec.isDigit with
    | false => exact ParseUintLoop_nondigit s 0 hall
    | true =>
      have hval : ¬ Spec.decimalValue s < 2 ^ 64 := by
        intro hv
        simp [Spec.isU64Decimal, hall, hne] at h
        rw [two_pow_64] at hv
        omega
      rw [(ParseUintLoop_digits s 0 (by norm_num) hall).2 hval]
      simp

/-! ## The scanner yields the lines of the file, up to the first over-long one -/

theorem lineText_eq_dropCR (l : List UInt8) : Spec.lineText l = bufio.dropCR l := rfl

theorem scanFrom_tokens (e : Option Error) (data cur : List UInt8) :
    (bufio.scanFrom e data cur).tokens =
      ((match Spec.fileLines data with
        | [] => if cur = [] then [] else [cur.reverse]
        | l :: ls => (cur.reverse ++ l) :: ls).takeWhile
          (fun l => !Spec.overLong l)).map bufio.dropCR := by
  induction data generalizing cur with
  | nil =>
    unfold bufio.scanFrom
    simp only [Spec.fileLines]
    by_cases hc : cur = []
    · simp [hc]
    · simp only [if_neg hc]
      by_cases hl : cur.length < bufio.MaxScanTokenSize
      · have : Spec.overLong cur.reverse = false := by
          simp only [Spec.overLong, List.length_reverse, decide_eq_false_iff_not, not_le]
          simpa [bufio.MaxScanTokenSize] using hl
        simp [hl, List.takeWhile, this]
      · have : Spec.overLong cur.reverse = true := by
          simp only [Spec.overLong, List.length_reverse, decide_eq_true_eq]
          simpa [bufio.MaxScanTokenSize] using hl
        simp [hl, List.takeWhile, this]
  | cons b rest ih =>
    unfold bufio.scanFrom
    by_cases hb : b = 10
    · simp only [if_pos hb, Spec.fileLines, List.append_nil]
      by_cases hl : cur.length < bufio.MaxScanTokenSize
      · have : Spec.overLong cur.reverse = false := by
          simp only [Spec.overLong, List.length_reverse, decide_eq_false_iff_not, not_le]
          simpa [bufio.MaxScanTokenSize] using hl
        simp only [if_pos hl, List.takeWhile, this, Bool.not_false, List.map_cons]
        rw [ih []]
        cases Spec.fileLines rest <;> simp
      · have : Spec.overLong cur.reverse = true := by
          simp only [Spec.overLong, List.length_reverse, decide_eq_true_eq]
          simpa [bufio.MaxScanTokenSize] using hl
        simp [hl, List.takeWhile, this]
    · simp only [if_neg hb, Spec.fileLines]
      rw [ih (b :: cur)]
      cases Spec.fileLines rest <;> simp

/-- The texts a scanner yields are the texts of the lines of the file that come before
its first over-long line. -/
theorem Scan_tokens (file : File) :
    (bufio.Scan file).tokens =
      ((Spec.fileLines file.data).takeWhile (fun l => !Spec.overLong l)).map bufio.dropCR := by
  unfold bufio.Scan
  rw [scanFrom_tokens]
  cases Spec.fileLines file.data <;> simp

/-! ## The loop of `Read` -/

theorem ReadLoop_counters (ts : List (List UInt8)) (i : Nat) (c : ccache.Counters)
    (hi : i < 82) (j : Fin 82) :
    (ccache.Counters.ReadLoop ts i c).1 j =
      if i ≤ j.val then
        match (((ts.take (82 - i)).takeWhile Spec.isU64Decimal).map
            Spec.decimalValue)[j.val - i]? with
        | some v => (c j + v) % 2 ^ 64
        | none => c j
      else c j := by
  induction ts generalizing i c with
  | nil => simp [ccache.Counters.ReadLoop]
  | cons t more ih =>
    have h82 : 82 - i = (81 - i) + 1 := by omega
    unfold ccache.Counters.ReadLoop
    rw [h82, List.take_succ_cons]
    cases ht : Spec.isU64Decimal t with
    | false =>
      have hp := ParseUint_invalid t ht
      simp only [List.takeWhile, ht, List.map_nil, List.getElem?_nil, ite_self]
      split
      · rfl
      · rename_i n hn
        rw [hn] at hp
        exact absurd rfl hp
    | true =>
      rw [ParseUint_valid t ht]
      simp only [List.takeWhile, ht, List.map_cons]
      by_cases h81 : i + 1 = 82
      · rw [if_pos h81]
        have hi81 : 81 - i = 0 := by omega
        simp only [hi81, List.take_zero, List.takeWhile, List.map_nil, ccache.Counters.add]
        by_cases hj : j.val = i
        · simp [hj]
        · have : ¬ i ≤ j.val := by omega
          simp [hj, this]
      · rw [if_neg h81, ih (i + 1) _ (by omega)]
        have e1 : 82 - (i + 1) = 81 - i := by omega
        rw [e1]
        by_cases hj : j.val = i
        · have : ¬ i + 1 ≤ j.val := by omega
          simp [hj, ccache.Counters.add]
        · by_cases hlt : i + 1 ≤ j.val
          · have e2 : j.val - i = (j.val - (i + 1)) + 1 := by omega
            have e3 : i ≤ j.val := by omega
            simp only [hlt, e3, if_true, ccache.Counters.add, hj, if_false]
            rw [e2, List.getElem?_cons_succ]
          · have e3 : ¬ i ≤ j.val := by omega
            simp [hlt, e3, ccache.Counters.add, hj]

theorem ReadLoop_error (ts : List (List UInt8)) (i : Nat) (c : ccache.Counters)
    (hi : i < 82) :
    (ccache.Counters.ReadLoop ts i c).2 = none ↔
      ∀ t ∈ ts.take (82 - i), Spec.isU64Decimal t = true := by
  induction ts generalizing i c with
  | nil => simp [ccache.Counters.ReadLoop]
  | cons t more ih =>
    have h82 : 82 - i = (81 - i) + 1 := by omega
    unfold ccache.Counters.ReadLoop
    rw [h82, List.take_succ_cons]
    cases ht : Spec.isU64Decimal t with
    | false =>
      have hp := ParseUint_invalid t ht
      constructor
      · intro h
        split at h
        · cases h
        · rename_i n hn
          rw [hn] at hp
          exact absurd rfl hp
      · intro h
        have := h t (List.mem_cons_self _ _)
        rw [ht] at this
        cases this
    | true =>
      rw [ParseUint_valid t ht]
      simp only [List.mem_cons, forall_eq_or_imp, ht, true_and]
      by_cases h81 : i + 1 = 82
      · rw [if_pos h81]
        have hi81 : 81 - i = 0 := by omega
        simp [hi81]
      · rw [if_neg h81, ih (i + 1) _ (by omega)]
        have e1 : 82 - (i + 1) = 81 - i := by omega
        rw [e1]

/-- The error `ReadLoop` returns does not depend on the counters. -/
theorem ReadLoop_error_indep (ts : List (List UInt8)) (i : Nat) (c c' : ccache.Counters) :
    (ccache.Counters.ReadLoop ts i c).2 = (ccache.Counters.ReadLoop ts i c').2 := by
  induction ts generalizing i c c' with
  | nil => rfl
  | cons t more ih =>
    unfold ccache.Counters.ReadLoop
    split
    · rfl
    · split
      · rfl
      · exact ih _ _ _

/-! ## `Read` in terms of the lines of the file -/

theorem take_takeWhile_comm {α : Type} (p : α → Bool) (L : List α) (n : Nat) :
    (L.takeWhile p).take n = (L.take n).takeWhile p := by
  induction L generalizing n with
  | nil => simp
  | cons a L ih =>
    cases n with
    | zero => simp
    | succ n =>
      cases ha : p a with
      | false => simp [List.takeWhile, ha]
      | true => simp [List.takeWhile, ha, ih]

theorem scanned_values (L : List (List UInt8)) (n : Nat) :
    (((((L.takeWhile (fun l => !Spec.overLong l)).map bufio.dropCR).take n).takeWhile
        Spec.isU64Decimal).map Spec.decimalValue)
      = ((L.take n).takeWhile Spec.validLine).map Spec.lineValue := by
  induction L generalizing n with
  | nil => simp
  | cons l L ih =>
    cases n with
    | zero => simp
    | succ n =>
      cases ho : Spec.overLong l with
      | true => simp [List.takeWhile, ho, Spec.validLine]
      | false =>
        cases hv : Spec.isU64Decimal (bufio.dropCR l) with
        | false => simp [List.takeWhile, ho, Spec.validLine, lineText_eq_dropCR, hv]
        | true =>
          simp only [List.takeWhile, ho, Bool.not_false, List.map_cons, List.take_succ_cons,
            hv, Spec.validLine, lineText_eq_dropCR, Bool.and_self, Spec.lineValue]
          have := ih n
          simp only [Spec.validLine, lineText_eq_dropCR, Spec.lineValue] at this
          rw [this]

/-- What `Read` does to the counter at index `j`, for every outcome of opening the
path: it adds the contribution of the path at `j`, if there is one. -/
theorem Read_counters (fs : FS) (c : ccache.Counters) (path : String) (j : Fin 82) :
    (ccache.Counters.Read fs c path).1 j =
      match (Spec.contribution (fs path))[j.val]? with
      | some v => (c j + v) % 2 ^ 64
      | none => c j := by
  unfold ccache.Counters.Read os.Open
  cases h : fs path with
  | error err =>
    simp only [Spec.contribution, List.getElem?_nil]
    split <;> rfl
  | ok file =>
    simp only [Spec.contribution, Spec.goodValues]
    rw [ReadLoop_counters _ 0 c (by omega) j, Scan_tokens, scanned_values]
    simp

/-- The error `Read` returns does not depend on the counters. -/
theorem Read_error_indep (fs : FS) (c c' : ccache.Counters) (path : String) :
    (ccache.Counters.Read fs c path).2 = (ccache.Counters.Read fs c' path).2 := by
  unfold ccache.Counters.Read os.Open
  cases fs path with
  | error err => simp only; split <;> rfl
  | ok file => exact ReadLoop_error_indep _ _ _ _

/-- `Read` looks at the file system at its path only. -/
theorem Read_congr (fs fs' : FS) (c : ccache.Counters) (path : String)
    (h : fs' path = fs path) :
    ccache.Counters.Read fs' c path = ccache.Counters.Read fs c path := by
  unfold ccache.Counters.Read os.Open
  rw [h]

/-- On an opened file `Read` fails exactly when one of the first 82 texts the scanner
yields is not an unsigned 64-bit decimal integer. -/
theorem Read_error_opened (fs : FS) (c : ccache.Counters) (path : String) (file : File)
    (h : fs path = .ok file) :
    (ccache.Counters.Read fs c path).2 = none ↔
      ∀ l ∈ ((Spec.fileLines file.data).take 82).takeWhile (fun l => !Spec.overLong l),
        Spec.isU64Decimal (Spec.lineText l) = true := by
  unfold ccache.Counters.Read os.Open
  simp only [h]
  rw [ReadLoop_error _ 0 c (by omega), Scan_tokens, ← List.map_take, take_takeWhile_comm]
  simp [lineText_eq_dropCR]

theorem Read_error_of_wellFormed (fs : FS) (c : ccache.Counters) (path : String)
    (h : Spec.wellFormed (fs path) = true) : (ccache.Counters.Read fs c path).2 = none := by
  cases hr : fs path with
  | error err =>
    rw [hr] at h
    simp only [Spec.wellFormed] at h
    simp [ccache.Counters.Read, os.Open, hr, h]
  | ok file =>
    rw [hr] at h
    simp only [Spec.wellFormed, Bool.and_eq_true, List.all_eq_true] at h
    rw [Read_error_opened fs c path file hr]
    intro l hl
    have hv := h.2 l ((List.takeWhile_sublist _).subset hl)
    simp only [Spec.validLine, Bool.and_eq_true] at hv
    exact hv.2

theorem contribution_of_wellFormed (r : Except Error File) (h : Spec.wellFormed r = true)
    (j : Fin 82) : (Spec.contribution r).getD j.val 0 = Spec.lineValueAt r j.val := by
  cases r with
  | error err => simp [Spec.contribution, Spec.lineValueAt]
  | ok file =>
    simp only [Spec.wellFormed, Bool.and_eq_true, List.all_eq_true] at h
    have hall : ((Spec.fileLines file.data).take 82).takeWhile Spec.validLine
        = (Spec.fileLines file.data).take 82 := by
      rw [List.takeWhile_eq_self_iff]
      exact h.2
    simp only [Spec.contribution, Spec.goodValues, Spec.lineValueAt, hall, List.getD_eq_getElem?_getD,
      List.getElem?_map, List.getElem?_take]
    rw [if_pos j.isLt]
    cases (Spec.fileLines file.data)[j.val]? <;> rfl

/-- Every entry of the vector is a `uint64`. -/
theorem Read_inRange (fs : FS) (c : ccache.Counters) (path : String)
    (hc : ∀ j, c j < 2 ^ 64) : ∀ j, (ccache.Counters.Read fs c path).1 j < 2 ^ 64 := by
  intro j
  rw [Read_counters]
  split
  · exact Nat.mod_lt _ (by norm_num)
  · exact hc j

theorem Read_getD (fs : FS) (c : ccache.Counters) (path : String)
    (hc : ∀ j, c j < 2 ^ 64) (j : Fin 82) :
    (ccache.Counters.Read fs c path).1 j =
      (c j + (Spec.contribution (fs path)).getD j.val 0) % 2 ^ 64 := by
  rw [Read_counters, List.getD_eq_getElem?_getD]
  cases (Spec.contribution (fs path))[j.val]? with
  | none =>
    simp only [Option.getD_none, Nat.add_zero]
    exact (Nat.mod_eq_of_lt (hc j)).symm
  | some v => simp

/-! ## `ReadAll` reads the 272 shard paths in order -/

theorem readPaths_append (fs : FS) (ps qs : List String) (c : ccache.Counters) :
    readPaths fs (ps ++ qs) c =
      match readPaths fs ps c with
      | (c', some err) => (c', some err)
      | (c', none) => readPaths fs qs c' := by
  induction ps generalizing c with
  | nil => simp [readPaths]
  | cons p ps ih =>
    simp only [List.cons_append, readPaths]
    split
    · rfl
    · exact ih _

theorem ReadAllLevel2_eq (fs : FS) (dir : String) (level1 : Nat) (ls : List Nat)
    (c : ccache.Counters) :
    ccache.Counters.ReadAllLevel2 fs dir level1 ls c =
      readPaths fs (ls.map (fmt.Sprintf_s_x_x_stats dir level1)) c := by
  induction ls generalizing c with
  | nil => rfl
  | cons l ls ih =>
    simp only [ccache.Counters.ReadAllLevel2, List.map_cons, readPaths]
    split
    · rfl
    · exact ih _

theorem ReadAllLevel1_eq (fs : FS) (dir : String) (ls : List Nat) (c : ccache.Counters) :
    ccache.Counters.ReadAllLevel1 fs dir ls c =
      readPaths fs (ls.flatMap fun level1 =>
        fmt.Sprintf_s_x_stats dir level1 ::
          (List.range (0xF + 1)).map (fmt.Sprintf_s_x_x_stats dir level1)) c := by
  induction ls generalizing c with
  | nil => rfl
  | cons l ls ih =>
    rw [ccache.Counters.ReadAllLevel1, List.flatMap_cons, List.cons_append, readPaths]
    split
    · rfl
    · rw [readPaths_append, ReadAllLevel2_eq]
      split
      · rfl
      · exact ih _

theorem hex_range : (List.range (0xF + 1)).map fmt.hex = Spec.hexDigits := by decide

theorem codePaths_eq_shardPaths (dir : String) :
    ((List.range (0xF + 1)).flatMap fun level1 =>
        fmt.Sprintf_s_x_stats dir level1 ::
          (List.range (0xF + 1)).map (fmt.Sprintf_s_x_x_stats dir level1))
      = Spec.shardPaths dir := by
  unfold Spec.shardPaths
  rw [← hex_range]
  simp only [List.flatMap_map, fmt.Sprintf_s_x_stats, List.map_map]
  rfl

/-- `ReadAll` is the sequential reading of the 272 shard paths in the order of the
specification. -/
theorem ReadAll_eq_readPaths (fs : FS) (c : ccache.Counters) (dir : String) :
    ccache.Counters.ReadAll fs c dir = readPaths fs (Spec.shardPaths dir) c := by
  unfold ccache.Counters.ReadAll
  rw [ReadAllLevel1_eq, codePaths_eq_shardPaths]

theorem readPaths_congr (fs fs' : FS) (ps : List String) (c : ccache.Counters)
    (h : ∀ p ∈ ps, fs' p = fs p) : readPaths fs' ps c = readPaths fs ps c := by
  induction ps generalizing c with
  | nil => rfl
  | cons p ps ih =>
    simp only [readPaths, Read_congr fs fs' c p (h p (List.mem_cons_self _ _))]
    split
    · rfl
    · exact ih _ (fun q hq => h q (List.mem_cons_of_mem _ hq))

theorem add_mod_assoc (a g s : Nat) :
    ((a + g) % 2 ^ 64 + s) % 2 ^ 64 = (a + (g + s)) % 2 ^ 64 := by
  rw [two_pow_64]
  omega

/-- When none of the paths fails, `readPaths` adds up the contributions of all of
them. -/
theorem readPaths_ok (fs : FS) (ps : List String) (c : ccache.Counters)
    (hc : ∀ j, c j < 2 ^ 64)
    (hok : ∀ p ∈ ps, (ccache.Counters.Read fs ccache.Counters.zero p).2 = none) :
    (readPaths fs ps c).2 = none ∧
    (∀ j, (readPaths fs ps c).1 j < 2 ^ 64) ∧
    ∀ j : Fin 82, (readPaths fs ps c).1 j =
      (c j + (ps.map fun p => (Spec.contribution (fs p)).getD j.val 0).sum) % 2 ^ 64 := by
  induction ps generalizing c with
  | nil =>
    refine ⟨rfl, hc, fun j => ?_⟩
    simp only [readPaths, List.map_nil, List.sum_nil, Nat.add_zero]
    exact (Nat.mod_eq_of_lt (hc j)).symm
  | cons p ps ih =>
    have herr : (ccache.Counters.Read fs c p).2 = none := by
      rw [Read_error_indep fs c ccache.Counters.zero p]
      exact hok p (List.mem_cons_self _ _)
    have hget := Read_getD fs c p hc
    have hrange := Read_inRange fs c p hc
    rcases hrd : ccache.Counters.Read fs c p with ⟨c', e⟩
    rw [hrd] at herr hget hrange
    simp only at herr hget hrange
    subst herr
    simp only [readPaths, hrd]
    obtain ⟨h1, h2, h3⟩ := ih c' hrange (fun q hq => hok q (List.mem_cons_of_mem _ hq))
    refine ⟨h1, h2, fun j => ?_⟩
    rw [h3 j, hget j, List.map_cons, List.sum_cons, add_mod_assoc]

/-- When the first failing path is `path`, `readPaths` returns its error, holding the
contributions of the paths up to it. -/
theorem readPaths_fail (fs : FS) (before after : List String) (path : String) (err : Error)
    (c : ccache.Counters) (hc : ∀ j, c j < 2 ^ 64)
    (hbefore : ∀ p ∈ before, (ccache.Counters.Read fs ccache.Counters.zero p).2 = none)
    (hfail : (ccache.Counters.Read fs ccache.Counters.zero path).2 = some err) :
    (readPaths fs (before ++ path :: after) c).2 = some err ∧
    ∀ j : Fin 82, (readPaths fs (before ++ path :: after) c).1 j =
      (c j + ((before ++ [path]).map fun p =>
        (Spec.contribution (fs p)).getD j.val 0).sum) % 2 ^ 64 := by
  obtain ⟨h1, h2, h3⟩ := readPaths_ok fs before c hc hbefore
  rw [readPaths_append]
  rcases hrb : readPaths fs before c with ⟨cb, eb⟩
  rw [hrb] at h1 h2 h3
  simp only at h1 h2 h3
  subst h1
  have herr : (ccache.Counters.Read fs cb path).2 = some err := by
    rw [Read_error_indep fs cb ccache.Counters.zero path]
    exact hfail
  have hget := Read_getD fs cb path h2
  rcases hrd : ccache.Counters.Read fs cb path with ⟨c', e⟩
  rw [hrd] at herr hget
  simp only at herr hget
  subst herr
  simp only [readPaths, hrd]
  refine ⟨trivial, fun j => ?_⟩
  rw [hget j, h3 j, List.map_append, List.sum_append, List.map_cons, List.map_nil,
    List.sum_cons, List.sum_nil, Nat.add_zero, add_mod_assoc]

set_option maxRecDepth 16384 in
theorem shardPaths_length (base : String) : (Spec.shardPaths base).length = 272 := rfl

theorem base_stats_not_shard (base : String) : base ++ "/stats" ∉ Spec.shardPaths base := by
  intro h
  simp only [Spec.shardPaths, List.mem_flatMap, List.mem_cons, List.mem_map] at h
  obtain ⟨h1, _, h | ⟨h2, _, h⟩⟩ := h
  · have := congrArg String.length h
    simp only [String.length_append] at this
    have e : "/stats".length = 6 := by decide
    have e1 : "/".length = 1 := by decide
    omega
  · have := congrArg String.length h
    simp only [String.length_append] at this
    have e : "/stats".length = 6 := by decide
    have e1 : "/".length = 1 := by decide
    omega

theorem string_append_left_cancel (base a b : String) (h : base ++ a = base ++ b) : a = b := by
  rw [String.ext_iff] at h ⊢
  simp only [String.data_append] at h
  exact List.append_cancel_left h

theorem shardPaths_eq_map (base : String) :
    Spec.shardPaths base = (Spec.shardPaths "").map (fun s => base ++ s) := by
  simp only [Spec.shardPaths, List.map_flatMap, List.map_cons, List.map_map, Function.comp_def,
    String.append_assoc, String.empty_append]

set_option maxRecDepth 100000 in
/-- The position of a relative shard path in the walk, read off its hexadecimal
digits, is its index in the list. -/
theorem shardPaths_root_positions :
    (Spec.shardPaths "").map (fun s =>
      match s.data with
      | [_, a, _, _, _, _, _, _] => 17 * (if a.toNat ≤ 57 then a.toNat - 48 else a.toNat - 87)
      | [_, a, _, b, _, _, _, _, _, _] =>
        17 * (if a.toNat ≤ 57 then a.toNat - 48 else a.toNat - 87) + 1
          + (if b.toNat ≤ 57 then b.toNat - 48 else b.toNat - 87)
      | _ => 0) = List.range 272 := by
  decide

theorem shardPaths_root_nodup : (Spec.shardPaths "").Nodup := by
  apply List.Nodup.of_map
  rw [shardPaths_root_positions]
  exact List.nodup_range 272

/-- The 272 shard paths of a base directory are pairwise different. -/
theorem shardPaths_nodup (base : String) : (Spec.shardPaths base).Nodup := by
  rw [shardPaths_eq_map]
  exact List.Nodup.map (fun a b h => string_append_left_cancel base a b h) shardPaths_root_nodup

theorem Read_error_of_valid (fs : FS) (c : ccache.Counters) (path : String) (file : File)
    (hopen : fs path = .ok file)
    (h : ∀ l ∈ (Spec.fileLines file.data).take 82, Spec.validLine l = true) :
    (ccache.Counters.Read fs c path).2 = none := by
  rw [Read_error_opened fs c path file hopen]
  intro l hl
  have hv := h l ((List.takeWhile_sublist _).subset hl)
  simp only [Spec.validLine, Bool.and_eq_true] at hv
  exact hv.2

/-- When `Read` fails on an opened file, one of the first 82 lines of the file is not
a valid line. -/
theorem Read_error_needs_invalid_line (fs : FS) (c : ccache.Counters) (path : String)
    (file : File) (hopen : fs path = .ok file)
    (herr : (ccache.Counters.Read fs c path).2 ≠ none) :
    ∃ l ∈ (Spec.fileLines file.data).take 82, Spec.validLine l = false := by
  by_contra hno
  apply herr
  apply Read_error_of_valid fs c path file hopen
  intro l hl
  by_contra hl'
  exact hno ⟨l, hl, by simpa using hl'⟩

/-! ## The claims -/

/-- C1: when every one of the 272 shard paths either has no file or has a readable and
valid stats file, `ReadAll` returns no error and leaves at every index `i` the initial
counter plus the sum, over the 272 paths, of the value on line `i` of the file there
(0 without file or without line `i`), modulo `2^64`. The paths are 272 different ones,
`<base>/stats` is not among them, and the outcome is the same on every file system
that agrees on the 272 paths. -/
theorem C1_ReadAll_sums_shards (fs : FS) (base : String) (c : ccache.Counters)
    (hc : ∀ j, c j < 2 ^ 64)
    (hfs : ∀ p ∈ Spec.shardPaths base, Spec.wellFormed (fs p) = true) :
    (ccache.Counters.ReadAll fs c base).2 = none ∧
    (∀ i : Fin 82, (ccache.Counters.ReadAll fs c base).1 i =
      (c i + ((Spec.shardPaths base).map fun p => Spec.lineValueAt (fs p) i.val).sum)
        % 2 ^ 64) ∧
    (Spec.shardPaths base).length = 272 ∧
    (Spec.shardPaths base).Nodup ∧
    base ++ "/stats" ∉ Spec.shardPaths base ∧
    (∀ fs' : FS, (∀ p ∈ Spec.shardPaths base, fs' p = fs p) →
      ccache.Counters.ReadAll fs' c base = ccache.Counters.ReadAll fs c base) := by
  have hok : ∀ p ∈ Spec.shardPaths base,
      (ccache.Counters.Read fs ccache.Counters.zero p).2 = none :=
    fun p hp => Read_error_of_wellFormed fs _ p (hfs p hp)
  obtain ⟨h1, _, h3⟩ := readPaths_ok fs (Spec.shardPaths base) c hc hok
  refine ⟨?_, ?_, shardPaths_length base, shardPaths_nodup base, base_stats_not_shard base, ?_⟩
  · rw [ReadAll_eq_readPaths]; exact h1
  · intro i
    have hmap : (Spec.shardPaths base).map (fun p => (Spec.contribution (fs p)).getD i.val 0)
        = (Spec.shardPaths base).map (fun p => Spec.lineValueAt (fs p) i.val) :=
      List.map_congr_left (fun p hp => contribution_of_wellFormed (fs p) (hfs p hp) i)
    rw [ReadAll_eq_readPaths, h3 i, hmap]
  · intro fs' hfs'
    rw [ReadAll_eq_readPaths, ReadAll_eq_readPaths]
    exact readPaths_congr fs fs' _ c hfs'

/-- C3: when opening the path fails because no file exists, `Read` returns no error
and the vector as it was; when it fails for another reason, `Read` returns that error
and the vector as it was. -/
theorem C3_Read_open_failure (fs : FS) (c : ccache.Counters) (path : String) (err : Error)
    (hopen : fs path = .error err) :
    (os.IsNotExist err = true → ccache.Counters.Read fs c path = (c, none)) ∧
    (os.IsNotExist err = false → ccache.Counters.Read fs c path = (c, some err)) := by
  constructor
  · intro h
    simp [ccache.Counters.Read, os.Open, hopen, h]
  · intro h
    simp [ccache.Counters.Read, os.Open, hopen, h]

theorem replicate_append_cons {α : Type} (n : Nat) (a : α) (l : List α) :
    List.replicate n a ++ a :: l = a :: (List.replicate n a ++ l) := by
  induction n with
  | zero => rfl
  | succ n ih =>
    rw [List.replicate_succ, List.cons_append, ih]
    rfl

theorem scanFrom_run (e : Option Error) (n : Nat) (rest cur : List UInt8) :
    bufio.scanFrom e (List.replicate n 120 ++ rest) cur
      = bufio.scanFrom e rest (List.replicate n 120 ++ cur) := by
  induction n generalizing cur with
  | zero => rfl
  | succ n ih =>
    have hne : (120 : UInt8) ≠ 10 := by decide
    rw [List.replicate_succ, List.cons_append, bufio.scanFrom, if_neg hne, ih,
      replicate_append_cons]
    rfl

/-- A scanner stops with `ErrTooLong`, and without a token, on a file that is one line
of at least `MaxScanTokenSize` bytes. -/
theorem Scan_run_too_long (e : Option Error) (n : Nat) (hn : bufio.MaxScanTokenSize ≤ n) :
    bufio.Scan ⟨List.replicate n 120, e⟩ = ⟨[], some Error.ErrTooLong⟩ := by
  have h := scanFrom_run e n [] []
  simp only [List.append_nil] at h
  unfold bufio.Scan
  simp only []
  rw [h, bufio.scanFrom]
  have hne : List.replicate n (120 : UInt8) ≠ [] := by
    intro h0
    have := congrArg List.length h0
    rw [List.length_replicate] at this
    simp only [bufio.MaxScanTokenSize, List.length_nil] at hn this
    omega
  rw [if_neg hne, List.length_replicate, if_neg (by omega)]

theorem fileLines_run (n : Nat) :
    Spec.fileLines (List.replicate (n + 1) 120) = [List.replicate (n + 1) 120] := by
  have hne : (120 : UInt8) ≠ 10 := by decide
  induction n with
  | zero => simp [Spec.fileLines, hne]
  | succ n ih =>
    rw [List.replicate_succ, Spec.fileLines, if_neg hne, ih]

theorem validLine_run (n : Nat) (hn : 64 * 1024 ≤ n) :
    Spec.validLine (List.replicate n 120) = false := by
  simp only [Spec.validLine, Spec.overLong, List.length_replicate, Bool.and_eq_false_imp,
    Bool.not_eq_true', decide_eq_false_iff_not]
  intro h
  exact absurd hn h

/-- C4, on the code: a stats file whose only line is 65536 bytes `x` has an invalid
(over-long, non-numeric) first line, the scanner stops on it with `ErrTooLong`, and
`Read` returns no error; a stats path that is a directory opens, its read fails, and
`Read` returns no error either. -/
theorem C4_Read_drops_scanner_error :
    Spec.fileLines Example.overLongLine = [Example.overLongLine] ∧
    Spec.validLine Example.overLongLine = false ∧
    (bufio.Scan Example.overLongFile).err = some Error.ErrTooLong ∧
    ccache.Counters.Read (fun _ => .ok Example.overLongFile) ccache.Counters.zero "stats"
      = (ccache.Counters.zero, none) ∧
    (bufio.Scan Example.directory).err = some (Error.errno Example.EISDIR) ∧
    ccache.Counters.Read (fun _ => .ok Example.directory) ccache.Counters.zero "stats"
      = (ccache.Counters.zero, none) := by
  refine ⟨fileLines_run 65535, validLine_run 65536 (by norm_num), ?_, ?_, rfl, rfl⟩
  · unfold Example.overLongFile Example.overLongLine
    rw [Scan_run_too_long none 65536 (by norm_num [bufio.MaxScanTokenSize])]
  · unfold ccache.Counters.Read os.Open Example.overLongFile Example.overLongLine
    simp only []
    rw [Scan_run_too_long none 65536 (by norm_num [bufio.MaxScanTokenSize])]
    rfl

/-- C5: `ReadAll` reads the 272 shard paths one after the other in the order of the
specification. When `path` is the first of them on which `Read` fails, `ReadAll`
returns the error of `path`, the counters hold the initial values plus the
contributions of the paths up to `path` (for `path` itself the values of its lines
before the bad one), modulo `2^64`, and no later path has any influence. -/
theorem C5_ReadAll_stops_at_first_failure (fs : FS) (base : String) (c : ccache.Counters)
    (before after : List String) (path : String) (err : Error)
    (hc : ∀ j, c j < 2 ^ 64)
    (hsplit : Spec.shardPaths base = before ++ path :: after)
    (hbefore : ∀ p ∈ before, (ccache.Counters.Read fs ccache.Counters.zero p).2 = none)
    (hfail : (ccache.Counters.Read fs ccache.Counters.zero path).2 = some err) :
    ccache.Counters.ReadAll fs c base = readPaths fs (Spec.shardPaths base) c ∧
    (ccache.Counters.ReadAll fs c base).2 = some err ∧
    (∀ i : Fin 82, (ccache.Counters.ReadAll fs c base).1 i =
      (c i + ((before ++ [path]).map fun p =>
        (Spec.contribution (fs p)).getD i.val 0).sum) % 2 ^ 64) ∧
    (∀ fs' : FS, (∀ p ∈ before ++ [path], fs' p = fs p) →
      ccache.Counters.ReadAll fs' c base = ccache.Counters.ReadAll fs c base) := by
  obtain ⟨h1, h2⟩ := readPaths_fail fs before after path err c hc hbefore hfail
  refine ⟨ReadAll_eq_readPaths fs c base, ?_, ?_, ?_⟩
  · rw [ReadAll_eq_readPaths, hsplit]; exact h1
  · intro i
    rw [ReadAll_eq_readPaths, hsplit]; exact h2 i
  · intro fs' hfs'
    have hbefore' : ∀ p ∈ before,
        (ccache.Counters.Read fs' ccache.Counters.zero p).2 = none := by
      intro p hp
      rw [Read_congr fs fs' _ p (hfs' p (List.mem_append_left _ hp))]
      exact hbefore p hp
    have hfail' : (ccache.Counters.Read fs' ccache.Counters.zero path).2 = some err := by
      rw [Read_congr fs fs' _ path (hfs' path (List.mem_append_right _ (List.mem_singleton_self _)))]
      exact hfail
    obtain ⟨h1', h2'⟩ := readPaths_fail fs' before after path err c hc hbefore' hfail'
    rw [ReadAll_eq_readPaths, ReadAll_eq_readPaths, hsplit]
    apply Prod.ext
    · funext i
      rw [h2 i, h2' i]
      have hmap : (before ++ [path]).map (fun p => (Spec.contribution (fs' p)).getD i.val 0)
          = (before ++ [path]).map (fun p => (Spec.contribution (fs p)).getD i.val 0) :=
        List.map_congr_left (fun p hp => by rw [hfs' p hp])
      rw [hmap]
    · rw [h1, h1']

theorem foldl_addU64 (l : List Nat) (a : Nat) :
    (List.foldl addU64 a l) % 2 ^ 64 = (a + l.sum) % 2 ^ 64 := by
  induction l generalizing a with
  | nil => simp
  | cons x l ih =>
    rw [List.foldl_cons, ih, List.sum_cons, addU64, add_mod_assoc]

theorem foldl_addU64_cons (l : List Nat) (a x : Nat) :
    List.foldl addU64 a (x :: l) = (a + (x :: l).sum) % 2 ^ 64 := by
  have hlt : List.foldl addU64 a (x :: l) < 2 ^ 64 := by
    induction l using List.reverseRecOn with
    | nil => exact Nat.mod_lt _ (by norm_num)
    | append_singleton l y _ =>
      rw [← List.cons_append, List.foldl_append]
      exact Nat.mod_lt _ (by norm_num)
  rw [← foldl_addU64, Nat.mod_eq_of_lt hlt]

/-- C6: the integers of `Collect` satisfy `call = cachable + uncacheable + errors`,
`cachable = miss + hits`, `miss = counters[4]`, `hits = counters[22] + counters[8]`,
`uncacheable` is the sum of the 19 counters the specification lists and `errors` the
sum of the 6 it lists, all modulo `2^64`; the 28 indices involved are pairwise
different. -/
theorem C6_call_is_sum_of_parts (counters : ccache.Counters) :
    CollectVars.call counters =
      (CollectVars.cachable counters + CollectVars.uncacheable counters
        + CollectVars.errors counters) % 2 ^ 64 ∧
    CollectVars.cachable counters =
      (CollectVars.miss counters + CollectVars.hits counters) % 2 ^ 64 ∧
    CollectVars.miss counters = counters 4 ∧
    CollectVars.hits counters = (counters 22 + counters 8) % 2 ^ 64 ∧
    CollectVars.uncacheable counters = Spec.sumOf counters Spec.uncacheableKinds % 2 ^ 64 ∧
    CollectVars.errors counters = Spec.sumOf counters Spec.errorKinds % 2 ^ 64 ∧
    Spec.uncacheableKinds.length = 19 ∧ Spec.errorKinds.length = 6 ∧
    ([4, 22, 8] ++ Spec.uncacheableKinds ++ Spec.errorKinds).Nodup := by
  refine ⟨?_, rfl, rfl, rfl, ?_, ?_, rfl, rfl, by decide⟩
  · simp only [CollectVars.call, addU64]
    rw [two_pow_64]
    omega
  · rw [CollectVars.uncacheable, foldl_addU64_cons]
    rfl
  · rw [CollectVars.errors, foldl_addU64_cons]
    rfl

/-- C7, as stated, fails: with DirectCacheHit `2^64 - 1` and CacheMiss 2 (all counters
unsigned 64-bit values) the sum `cachable` wraps around to 1, so `cachable > 0`,
`hits > cachable` and the hit ratio is above 1. -/
theorem C7_hitRatio_above_one_on_wrap :
    (∀ j, Example.wrapping j < 2 ^ 64) ∧
    CollectVars.cachable Example.wrapping > 0 ∧
    ¬ CollectVars.hits Example.wrapping ≤ CollectVars.cachable Example.wrapping ∧
    ¬ CollectVars.hitRatio Example.wrapping ≤ 1 := by
  have hh : CollectVars.hits Example.wrapping = 18446744073709551615 := by decide
  have hc : CollectVars.cachable Example.wrapping = 1 := by decide
  refine ⟨?_, ?_, ?_, ?_⟩
  · intro j
    unfold Example.wrapping
    split_ifs <;> norm_num
  · rw [hc]; norm_num
  · rw [hh, hc]; norm_num
  · unfold CollectVars.hitRatio
    rw [hh, hc]
    norm_num

/-- C7, amended: the hit ratio is never negative and is exactly 0 when `cachable` is
0; whenever the sum `CacheMiss + hits` does not wrap around, `hits <= cachable` and
the hit ratio is at most 1. -/
theorem C7_hitRatio_in_unit_interval (counters : ccache.Counters) :
    0 ≤ CollectVars.hitRatio counters ∧
    (CollectVars.cachable counters = 0 → CollectVars.hitRatio counters = 0) ∧
    (CollectVars.miss counters + CollectVars.hits counters < 2 ^ 64 →
      CollectVars.hits counters ≤ CollectVars.cachable counters ∧
      CollectVars.hitRatio counters ≤ 1) := by
  refine ⟨?_, ?_, ?_⟩
  · unfold CollectVars.hitRatio
    split
    · positivity
    · exact le_refl _
  · intro h
    unfold CollectVars.hitRatio
    rw [if_neg (by omega)]
  · intro h
    have hle : CollectVars.hits counters ≤ CollectVars.cachable counters := by
      unfold CollectVars.cachable addU64
      rw [Nat.mod_eq_of_lt h]
      omega
    refine ⟨hle, ?_⟩
    unfold CollectVars.hitRatio
    split
    · rename_i hpos
      rw [div_le_one (by exact_mod_cast hpos)]
      exact_mod_cast hle
    · norm_num

/-- C7, amended, on counters with 3 direct and 7 preprocessed hits and no miss. -/
theorem C7_hitRatio_in_unit_interval_witness :
    CollectVars.hits Example.hitsOnly ≤ CollectVars.cachable Example.hitsOnly ∧
    CollectVars.hitRatio Example.hitsOnly ≤ 1 :=
  (C7_hitRatio_in_unit_interval Example.hitsOnly).2.2 (by decide)

/-- C8: when `ReadAll` fails, one call of `Collect` raises the parsing-errors counter by
exactly 1 and sends no metric; when `ReadAll` succeeds, `Collect` leaves the
parsing-errors counter as it was (and sends its 15 metrics). -/
theorem C8_Collect_counts_failed_scrape (c : collector) (fs : FS) (parsingErrors : Nat) :
    ((ccache.Counters.ReadAll fs ccache.Counters.zero c.ccacheDir).2 ≠ none →
      (c.Collect fs parsingErrors).parsingErrors = parsingErrors + 1 ∧
      (c.Collect fs parsingErrors).sent = []) ∧
    ((ccache.Counters.ReadAll fs ccache.Counters.zero c.ccacheDir).2 = none →
      (c.Collect fs parsingErrors).parsingErrors = parsingErrors ∧
      (c.Collect fs parsingErrors).sent.length = 15) := by
  unfold collector.Collect
  rcases h : ccache.Counters.ReadAll fs ccache.Counters.zero c.ccacheDir with ⟨cs, e⟩
  cases e with
  | none => simp
  | some err => simp

/-- C8 on a tree where the stats file of shard `0/1` holds the line `abc`. -/
theorem C8_Collect_counts_failed_scrape_witness :
    (ccache.Counters.ReadAll Example.abcTree ccache.Counters.zero "/ccache").2
      = some Error.ErrSyntax ∧
    ((mainCollector "/ccache" 0).Collect Example.abcTree 41).parsingErrors = 42 ∧
    ((mainCollector "/ccache" 0).Collect Example.abcTree 41).sent = [] :=
  ⟨by decide,
   (C8_Collect_counts_failed_scrape (mainCollector "/ccache" 0) Example.abcTree 41).1
     (by decide)⟩

/-- C9, as stated, fails: the valid one-line stats file `"9223372036854775808\n"`
read once into a zeroed vector gives `2^63` at index 0, read twice gives 0, which is
not the double of `2^63`. -/
theorem C9_double_read_wraps :
    (∀ l ∈ Spec.fileLines Example.twoPow63, Spec.validLine l = true) ∧
    (Spec.fileLines Example.twoPow63).length ≤ 82 ∧
    (ccache.Counters.Read Example.twoPow63Tree ccache.Counters.zero "stats").1 0 = 2 ^ 63 ∧
    (ccache.Counters.Read Example.twoPow63Tree
      (ccache.Counters.Read Example.twoPow63Tree ccache.Counters.zero "stats").1 "stats").1 0
      = 0 ∧
    (ccache.Counters.Read Example.twoPow63Tree
      (ccache.Counters.Read Example.twoPow63Tree ccache.Counters.zero "stats").1 "stats").1 0
      ≠ 2 * (ccache.Counters.Read Example.twoPow63Tree ccache.Counters.zero "stats").1 0 := by
  refine ⟨by decide, by decide, by decide, by decide, by decide⟩

/-- C9, amended: for a stats file whose first 82 lines are valid (so for every valid
stats file of at most 82 lines), reading it twice into a zeroed vector succeeds both
times and leaves at every index the double of the single-read value modulo `2^64`,
which is exactly the double whenever the single-read value is below `2^63`. -/
theorem C9_double_read_doubles_mod (fs : FS) (path : String) (data : List UInt8)
    (readErr : Option Error)
    (hopen : fs path = .ok ⟨data, readErr⟩)
    (hvalid : ∀ l ∈ (Spec.fileLines data).take 82, Spec.validLine l = true) :
    (ccache.Counters.Read fs ccache.Counters.zero path).2 = none ∧
    (ccache.Counters.Read fs
      (ccache.Counters.Read fs ccache.Counters.zero path).1 path).2 = none ∧
    ∀ i : Fin 82,
      (ccache.Counters.Read fs
        (ccache.Counters.Read fs ccache.Counters.zero path).1 path).1 i
        = (2 * (ccache.Counters.Read fs ccache.Counters.zero path).1 i) % 2 ^ 64 ∧
      ((ccache.Counters.Read fs ccache.Counters.zero path).1 i < 2 ^ 63 →
        (ccache.Counters.Read fs
          (ccache.Counters.Read fs ccache.Counters.zero path).1 path).1 i
          = 2 * (ccache.Counters.Read fs ccache.Counters.zero path).1 i) := by
  have hv := hvalid
  have htwice : ∀ i : Fin 82,
      (ccache.Counters.Read fs
        (ccache.Counters.Read fs ccache.Counters.zero path).1 path).1 i
        = (2 * (ccache.Counters.Read fs ccache.Counters.zero path).1 i) % 2 ^ 64 := by
    intro i
    rw [Read_counters fs _ path i, Read_counters fs ccache.Counters.zero path i]
    cases (Spec.contribution (fs path))[i.val]? with
    | none => rfl
    | some v =>
      simp only [ccache.Counters.zero, Nat.zero_add, two_mul]
      rw [Nat.add_mod (v % 2 ^ 64) v, Nat.mod_mod]
  refine ⟨Read_error_of_valid fs _ path ⟨data, readErr⟩ hopen hv,
    Read_error_of_valid fs _ path ⟨data, readErr⟩ hopen hv, fun i => ⟨htwice i, ?_⟩⟩
  intro hsmall
  rw [htwice i]
  apply Nat.mod_eq_of_lt
  have : (2 : Nat) ^ 64 = 2 * 2 ^ 63 := by norm_num
  omega

/-- C9, amended, on the stats file `0 0 0 0 5`: index 4 holds 10 after two reads. -/
theorem C9_double_read_doubles_mod_witness :
    (ccache.Counters.Read Example.oneShard
      (ccache.Counters.Read Example.oneShard ccache.Counters.zero "/ccache/3/stats").1
      "/ccache/3/stats").1 4 = 10 := by
  have h := (C9_double_read_doubles_mod Example.oneShard "/ccache/3/stats" Example.missFive
    none rfl (by decide)).2.2 4
  rw [h.1]
  decide

/-- C10, on the code: for the collector that `main` builds, a successful scrape (here
of a tree without any stats file) sends a metric with the descriptor `callCachable`
(`ccache_call_cachable_total`), and `Describe` does not send that descriptor. -/
theorem C10_callCachable_not_described :
    (ccache.Counters.ReadAll Example.emptyTree ccache.Counters.zero "/ccache").2 = none ∧
    (mainCollector "/ccache" 0).callCachable ∈
      (((mainCollector "/ccache" 0).Collect Example.emptyTree 0).sent.map fun m => m.desc) ∧
    (mainCollector "/ccache" 0).callCachable.fqName = "ccache_call_cachable_total" ∧
    (mainCollector "/ccache" 0).callCachable ∉ (mainCollector "/ccache" 0).Describe ∧
    (mainCollector "/ccache" 0).Describe.length = 13 := by
  refine ⟨by decide, by decide, by decide, by decide, by decide⟩

/-! ## Instances of the theorems on concrete inputs -/

/-- The zero vector holds `uint64` values. -/
theorem zero_inRange : ∀ j, ccache.Counters.zero j < 2 ^ 64 := by
  intro j
  unfold ccache.Counters.zero
  norm_num

set_option maxRecDepth 65536 in
/-- C1 on a tree whose only stats file is `3/stats` with CacheMiss 5. -/
theorem C1_ReadAll_sums_shards_witness :
    (ccache.Counters.ReadAll Example.oneShard ccache.Counters.zero "/ccache").2 = none ∧
    (ccache.Counters.ReadAll Example.oneShard ccache.Counters.zero "/ccache").1 4 =
      (ccache.Counters.zero 4 + ((Spec.shardPaths "/ccache").map fun p =>
        Spec.lineValueAt (Example.oneShard p) (4 : Fin 82).val).sum) % 2 ^ 64 := by
  have h := C1_ReadAll_sums_shards Example.oneShard "/ccache" ccache.Counters.zero
    zero_inRange (by decide)
  exact ⟨h.1, h.2.1 4⟩

/-- C3 on a tree without any stats file. -/
theorem C3_Read_open_failure_witness :
    ccache.Counters.Read Example.emptyTree Example.hitsOnly "/ccache/0/stats"
      = (Example.hitsOnly, none) :=
  (C3_Read_open_failure Example.emptyTree Example.hitsOnly "/ccache/0/stats"
    (.errno os.ENOENT) rfl).1 rfl

set_option maxRecDepth 16384 in
/-- C5 on a tree where `0/stats` is fine and `0/1/stats` holds the line `abc`. -/
theorem C5_ReadAll_stops_at_first_failure_witness :
    (ccache.Counters.ReadAll Example.abcTree ccache.Counters.zero "/ccache").2
      = some Error.ErrSyntax ∧
    (ccache.Counters.ReadAll Example.abcTree ccache.Counters.zero "/ccache").1 0 =
      (0 + ((["/ccache/0/stats", "/ccache/0/0/stats"] ++ ["/ccache/0/1/stats"]).map fun p =>
        (Spec.contribution (Example.abcTree p)).getD 0 0).sum) % 2 ^ 64 := by
  have h := C5_ReadAll_stops_at_first_failure Example.abcTree "/ccache" ccache.Counters.zero
    ["/ccache/0/stats", "/ccache/0/0/stats"] ((Spec.shardPaths "/ccache").drop 3)
    "/ccache/0/1/stats" Error.ErrSyntax zero_inRange
    rfl (by decide) (by decide)
  exact ⟨h.2.1, h.2.2.1 0⟩
